import Mathlib

/-!
# Verification of the turftopic clustering topic model core

Shallow embedding of `turftopic/models/cluster.py`: the topic-vector
estimator (`calculate_topic_vectors`), the agglomerative topic merger
(`ClusteringTopicModel._merge_agglomerative`), parameter estimation
(`ClusteringTopicModel._estimate_parameters`), the fitting pipeline
(`ClusteringTopicModel.fit_predict`) and the constructor check
(`ClusteringTopicModel.__init__`).

Conventions of the embedding:
* documents are identified by position; embeddings are `List (List ℚ)`
  (rows = documents), labels are `List Int`;
* numpy array operations are modelled by their mathematical contract:
  `np.sort (np.unique xs)` is the ascending duplicate-free list of the
  values of `xs`, `np.mean` along axis 0 is the componentwise rational
  mean, `np.stack` is the identity on a list of rows;
* external collaborators (encoder, vectorizer, dimensionality reducer,
  clusterer, and sklearn's `AgglomerativeClustering`) are parameters:
  fallible ones return `Except String _`;
* `sklearn.preprocessing.label_binarize` is modelled by its documented
  contract, including the special cases in which it returns a single
  column: a binary problem (exactly two classes) and a single class;
* functions of `turftopic.feature_importance` (`soft_ctf_idf`,
  `cluster_centroid_distance`) are code of the repository that is not
  part of the sources given here; they are modelled from the spec and
  carry a `Modelled from the spec:` doc comment;
* the mutable fitted state of the model object is threaded explicitly
  through a `ModelState` record, with assignments happening in the
  exact order of the Python statements, so that partially published
  state after a collaborator failure is observable.
-/

/-- Entry `j` of row `i` of a matrix given as a list of rows
(out-of-range reads default to `0`; all theorems bound the indices). -/
def getE (m : List (List ℚ)) (i j : ℕ) : ℚ := (m.getD i []).getD j 0

/-- Componentwise sum of two vectors (`numpy` broadcasting addition on
equal-length vectors). -/
def vecAdd (v w : List ℚ) : List ℚ := List.zipWith (· + ·) v w

/-- Sum of a list of equal-length vectors. -/
def vecSum : List (List ℚ) → List ℚ
  | [] => []
  | [v] => v
  | v :: w :: rest => vecAdd v (vecSum (w :: rest))

/-- `np.mean` of the rows along axis 0: componentwise arithmetic mean. -/
def vecMean (rows : List (List ℚ)) : List ℚ :=
  (vecSum rows).map (fun x => x / (rows.length : ℚ))

/-- `np.sort (np.unique labels)`: ascending duplicate-free list of the
values occurring in `labels`. -/
def npUnique (labels : List Int) : List Int :=
  List.insertionSort (· ≤ ·) labels.dedup

/-- Row selection `embeddings[cluster_labels == label]`: the embedding rows
whose position carries the given label. -/
def selectRows (cluster_labels : List Int) (embeddings : List (List ℚ))
    (label : Int) : List (List ℚ) :=
  ((cluster_labels.zip embeddings).filter (fun p => p.1 = label)).map (fun p => p.2)

/-- `calculate_topic_vectors` from `cluster.py`: for every distinct label in
ascending order, the mean of the embeddings of the documents carrying it. -/
def calculate_topic_vectors (cluster_labels : List Int)
    (embeddings : List (List ℚ)) : List (List ℚ) :=
  (npUnique cluster_labels).map
    (fun label => vecMean (selectRows cluster_labels embeddings label))

/-- `sklearn.preprocessing.label_binarize (labels, classes)` modelled by its
documented contract, INCLUDING the special cases: with three or more classes
it is the one-hot document×class matrix (row per document, column per class,
entry 1 exactly when the document's label is that class); with exactly two
classes it is a binary problem and sklearn returns a single column, the
indicator of the SECOND listed class (its docstring example:
label_binarize of [1, 6] with classes [1, 6] is [[0], [1]]); with a single
class it returns one column of the neg_label, i.e. all zeros. -/
def label_binarize (labels : List Int) (classes : List Int) : List (List ℚ) :=
  if classes.length = 1 then
    labels.map (fun _ => [(0 : ℚ)])
  else if classes.length = 2 then
    labels.map (fun l => [if l = classes.getD 1 0 then (1 : ℚ) else 0])
  else
    labels.map (fun l => classes.map (fun c => if l = c then (1 : ℚ) else 0))

/-- Number of columns of a matrix given as a list of rows. -/
def numCols (m : List (List ℚ)) : ℕ := (m.headD []).length

/-- Modelled from the spec: `soft_ctf_idf` from `turftopic.feature_importance`
(not among the given sources). Per the spec it combines the document×topic
indicator matrix with the document×term matrix into a per-topic aggregated
term-frequency vector and scales it by an inverse-document-frequency-like
column weight; the exact smoothing formula is an open question of the spec,
so the column weight is a parameter `idfWeight`. Output: one row per topic
(column of `doc_topic`), one column per term (column of `doc_term`). -/
def soft_ctf_idf (idfWeight : ℕ → ℚ) (doc_topic : List (List ℚ))
    (doc_term : List (List ℚ)) : List (List ℚ) :=
  (List.range (numCols doc_topic)).map (fun t =>
    (List.range (numCols doc_term)).map (fun j =>
      idfWeight j *
        ((List.range doc_topic.length).map
          (fun i => getE doc_topic i t * getE doc_term i j)).sum))

/-- Modelled from the spec: `cluster_centroid_distance` from
`turftopic.feature_importance` (not among the given sources). Per the spec it
computes, for each topic centroid and each vocabulary term embedding, a
cosine-based similarity; the numeric measure is a parameter `sim`. Output:
one row per topic centroid, one column per vocabulary term. -/
def cluster_centroid_distance (sim : List ℚ → List ℚ → ℚ)
    (topic_vectors : List (List ℚ)) (vocab_embeddings : List (List ℚ)) :
    List (List ℚ) :=
  topic_vectors.map (fun t => vocab_embeddings.map (fun w => sim t w))

/-- The two term-importance strategies of `ClusteringTopicModel`. -/
inductive FeatureImportance
  | ctfidf
  | centroid
deriving DecidableEq

/-- `self.topic_sizes_` as computed in `_estimate_parameters`:
`np.array ([np.sum (cluster_labels == label) for label in self.classes_])`. -/
def topicSizes (cluster_labels : List Int) : List ℕ :=
  (npUnique cluster_labels).map (fun label => cluster_labels.count label)

/-- `self.components_` as computed in `_estimate_parameters`, by strategy:
soft c-tf-idf of the binarized labels, or centroid/term similarities. -/
def componentsOf (fi : FeatureImportance) (idfWeight : ℕ → ℚ)
    (sim : List ℚ → List ℚ → ℚ) (cluster_labels : List Int)
    (embeddings : List (List ℚ)) (doc_term_matrix : List (List ℚ))
    (vocab_embeddings : List (List ℚ)) : List (List ℚ) :=
  match fi with
  | .ctfidf =>
      soft_ctf_idf idfWeight
        (label_binarize cluster_labels (npUnique cluster_labels))
        doc_term_matrix
  | .centroid =>
      cluster_centroid_distance sim
        (calculate_topic_vectors cluster_labels embeddings) vocab_embeddings

/-- The non-outlier classes: `[label for label in self.classes_ if label != -1]`. -/
def nonOutlier (classes : List Int) : List Int :=
  classes.filter (fun c => c ≠ -1)

/-- `interesting_topic_vectors` of `_merge_agglomerative`: the topic vectors
whose class is not the outlier label. -/
def interestingOf (classes : List Int) (topic_vectors : List (List ℚ)) :
    List (List ℚ) :=
  ((classes.zip topic_vectors).filter (fun p => p.1 ≠ -1)).map (fun p => p.2)

/-- Lookup in a Python dict modelled as an association list (keys are
inserted at most once everywhere in this development, so first-match lookup
agrees with dict lookup). `none` models a `KeyError`. -/
def dictGet (d : List (Int × Int)) (k : Int) : Option Int :=
  (d.find? (fun p => p.1 = k)).map (fun p => p.2)

/-- `ClusteringTopicModel._merge_agglomerative`, parametric in the external
`AgglomerativeClustering` collaborator (its fit_predict with n_reduce_to clusters)
`agglo`. `n_topics` is `self.components_.shape[0]` as in the source; the
pipeline passes the row count of the published components matrix. The
returned dict maps, in the trivial branch, every class to itself; otherwise
-1 to -1 when present and each non-outlier class to its cluster index. -/
def merge_agglomerative (agglo : List (List ℚ) → ℕ → List ℕ)
    (classes : List Int) (topic_vectors : List (List ℚ))
    (n_topics : ℕ) (n_reduce_to : ℕ) : List (Int × Int) :=
  if n_topics ≤ n_reduce_to then
    classes.map (fun c => (c, c))
  else
    let old_labels := nonOutlier classes
    let new_labels := agglo (interestingOf classes topic_vectors) n_reduce_to
    (if (-1 : Int) ∈ classes then [((-1 : Int), (-1 : Int))] else []) ++
      old_labels.zip (new_labels.map Int.ofNat)

/-- The element-wise remapping
`np.array ([self.mapping_[label] for label in cluster_labels])`;
`none` models the `KeyError` raised on a label missing from the dict. -/
def applyMapping (mp : List (Int × Int)) : List Int → Option (List Int)
  | [] => some []
  | l :: rest =>
      match dictGet mp l, applyMapping mp rest with
      | some v, some vs => some (v :: vs)
      | _, _ => none

/-- The external collaborators injected into the model, behind the
capability interfaces of the spec. Fallible stages return
`Except String _` (`.error` models a raised exception). `encode` serves both
document and vocabulary encoding, as in the source. `vectorize` models
`vectorizer.fit_transform` plus the subsequent deterministic
`vectorizer.get_feature_names_out ()`, returning the document×term matrix
together with the vocabulary. `agglo` models
`AgglomerativeClustering (n_clusters) .fit_predict` on a stack of vectors. -/
structure Collaborators where
  encode : List String → Except String (List (List ℚ))
  vectorize : List String → Except String (List (List ℚ) × List String)
  reduce : List (List ℚ) → Except String (List (List ℚ))
  cluster : List (List ℚ) → Except String (List Int)
  agglo : List (List ℚ) → ℕ → List ℕ
  sim : List ℚ → List ℚ → ℚ
  idfWeight : ℕ → ℚ

/-- The mutable fitted state of a `ClusteringTopicModel` object. `none`
models an attribute never assigned; `some` a published value (possibly from
an earlier fit call). Fields are assigned in the exact order of the Python
statements. -/
structure ModelState where
  doc_term_matrix : Option (List (List ℚ)) := none
  classes_ : Option (List Int) := none
  topic_sizes_ : Option (List ℕ) := none
  topic_vectors_ : Option (List (List ℚ)) := none
  vocab_embeddings : Option (List (List ℚ)) := none
  components_ : Option (List (List ℚ)) := none
  labels_ : Option (List Int) := none
  mapping_ : Option (List (Int × Int)) := none
deriving DecidableEq

/-- `ClusteringTopicModel._estimate_parameters` as a state transformer:
assigns `classes_`, `topic_sizes_`, `topic_vectors_`, then encodes the
vocabulary (a fallible encoder call: on failure those three fields stay
published while the remaining ones keep their previous values), then assigns
`components_` by the chosen strategy and `labels_`. -/
def estimate_parameters_state (c : Collaborators) (fi : FeatureImportance)
    (cluster_labels : List Int) (embeddings : List (List ℚ))
    (doc_term_matrix : List (List ℚ)) (vocab : List String)
    (s : ModelState) : Except String Unit × ModelState :=
  let s1 := { s with
    classes_ := some (npUnique cluster_labels)
    topic_sizes_ := some (topicSizes cluster_labels)
    topic_vectors_ := some (calculate_topic_vectors cluster_labels embeddings) }
  match c.encode vocab with
  | .error e => (.error e, s1)
  | .ok ve =>
      let s2 := { s1 with vocab_embeddings := some ve }
      (.ok (), { s2 with
        components_ := some (componentsOf fi c.idfWeight c.sim cluster_labels
          embeddings doc_term_matrix ve)
        labels_ := some cluster_labels })

/-- `ClusteringTopicModel.fit_predict`, with the collaborator calls and the
state mutations in source order: (optional) document encoding, term
extraction (publishing `doc_term_matrix` immediately), dimensionality
reduction, clustering, parameter estimation, and — when `n_reduce_to` is
set — the merge, the element-wise label remapping (whose `KeyError` is
`.error "KeyError"`), and a second full parameter estimation on the remapped
labels. Returns `self.labels_` on success. -/
def fit_predict (c : Collaborators) (fi : FeatureImportance)
    (n_reduce_to : Option ℕ) (raw_documents : List String)
    (embeddingsArg : Option (List (List ℚ))) (s : ModelState) :
    Except String (List Int) × ModelState :=
  match (match embeddingsArg with
         | some e => Except.ok e
         | none => c.encode raw_documents : Except String (List (List ℚ))) with
  | .error e => (.error e, s)
  | .ok embeddings =>
    match c.vectorize raw_documents with
    | .error e => (.error e, s)
    | .ok (dtm, vocab) =>
      let s1 := { s with doc_term_matrix := some dtm }
      match c.reduce embeddings with
      | .error e => (.error e, s1)
      | .ok reduced =>
        match c.cluster reduced with
        | .error e => (.error e, s1)
        | .ok cluster_labels =>
          match estimate_parameters_state c fi cluster_labels embeddings dtm
            vocab s1 with
          | (.error e, s2) => (.error e, s2)
          | (.ok _, s2) =>
            match n_reduce_to with
            | none => (.ok (s2.labels_.getD []), s2)
            | some m =>
              let mapping := merge_agglomerative c.agglo (s2.classes_.getD [])
                (s2.topic_vectors_.getD []) (s2.components_.getD []).length m
              let s3 := { s2 with mapping_ := some mapping }
              match applyMapping mapping cluster_labels with
              | none => (.error "KeyError", s3)
              | some newLabels =>
                match estimate_parameters_state c fi newLabels embeddings dtm
                  vocab s3 with
                | (.error e, s4) => (.error e, s4)
                | (.ok _, s4) => (.ok (s4.labels_.getD []), s4)

/-- The first constructor argument of `ClusteringTopicModel`: a
sentence-transformer model name, a ready encoder, or — the rejected
misuse — a bare integer meant as a topic count. -/
inductive EncoderArg
  | intArg (n : Int)
  | strArg (name : String)
  | encArg (e : List String → Except String (List (List ℚ)))

/-- The `integer_message` string constant of `cluster.py`, raised as a
`TypeError` when an integer is passed as the first constructor argument. -/
def integer_message : String :=
  "\nYou tried to pass an integer to ClusteringTopicModel as its first argument.\nWe assume you tried to specify the number of topics.\nSince in ClusteringTopicModel the clustering model determines the number of topics,\nand this process may be automatic, you have to pass along a clustering model\nwhere the number of clusters is predefined.\n\nFor instance: ClusteringTopicModel(clustering=KMeans(10))\n\nAlternatively you can reduce the number of topics in the model by specifying\nthe desired reduced number on initialization.\n\nClusteringTopicModel(n_reduce_to=10)\n"

/-- A constructed (not yet fitted) model: bound collaborators, the strategy
tag, the optional reduction target, and the (empty) fitted state. -/
structure Model where
  collab : Collaborators
  feature_importance : FeatureImportance
  n_reduce_to : Option ℕ
  state : ModelState

/-- `ClusteringTopicModel.__init__`, parametric in the external constructors
(`SentenceTransformer`, the default vectorizer, default clustering, default
dimensionality reduction). An integer first argument raises
`TypeError (integer_message)` before anything else runs; otherwise the
collaborators are bound (falling back to the defaults) and a model with
empty fitted state is returned: no pipeline stage executes during
construction. -/
def ClusteringTopicModel_init
    (sentenceTransformer : String → List String → Except String (List (List ℚ)))
    (defaultVectorizer : List String → Except String (List (List ℚ) × List String))
    (defaultClustering : List (List ℚ) → Except String (List Int))
    (defaultDimRed : List (List ℚ) → Except String (List (List ℚ)))
    (agglo : List (List ℚ) → ℕ → List ℕ)
    (sim : List ℚ → List ℚ → ℚ) (idfWeight : ℕ → ℚ)
    (encoder : EncoderArg)
    (vectorizer : Option (List String → Except String (List (List ℚ) × List String)))
    (dimensionality_reduction : Option (List (List ℚ) → Except String (List (List ℚ))))
    (clustering : Option (List (List ℚ) → Except String (List Int)))
    (fi : FeatureImportance) (n_reduce_to : Option ℕ) :
    Except String Model :=
  match encoder with
  | .intArg _ => .error integer_message
  | .strArg name =>
      .ok { collab :=
              { encode := sentenceTransformer name
                vectorize := vectorizer.getD defaultVectorizer
                reduce := dimensionality_reduction.getD defaultDimRed
                cluster := clustering.getD defaultClustering
                agglo := agglo, sim := sim, idfWeight := idfWeight }
            feature_importance := fi
            n_reduce_to := n_reduce_to
            state := {} }
  | .encArg e =>
      .ok { collab :=
              { encode := e
                vectorize := vectorizer.getD defaultVectorizer
                reduce := dimensionality_reduction.getD defaultDimRed
                cluster := clustering.getD defaultClustering
                agglo := agglo, sim := sim, idfWeight := idfWeight }
            feature_importance := fi
            n_reduce_to := n_reduce_to
            state := {} }

/-! ## Helper lemmas about the sorted unique class list -/

lemma mem_npUnique {a : Int} {l : List Int} : a ∈ npUnique l ↔ a ∈ l := by
  unfold npUnique
  rw [(List.perm_insertionSort _ _).mem_iff, List.mem_dedup]

lemma nodup_npUnique (l : List Int) : (npUnique l).Nodup :=
  (List.perm_insertionSort _ _).nodup_iff.mpr l.nodup_dedup

lemma sorted_le_npUnique (l : List Int) : (npUnique l).Sorted (· ≤ ·) :=
  List.sorted_insertionSort _ _

lemma sorted_lt_npUnique (l : List Int) : (npUnique l).Sorted (· < ·) :=
  (sorted_le_npUnique l).lt_of_le (nodup_npUnique l)

lemma length_npUnique_pos {l : List Int} (h : l ≠ []) : 0 < (npUnique l).length := by
  rcases l with _ | ⟨a, t⟩
  · exact absurd rfl h
  · have : a ∈ npUnique (a :: t) := mem_npUnique.mpr (List.mem_cons_self a t)
    exact List.length_pos.mpr (List.ne_nil_of_mem this)

/-! ## Helper lemmas about vector sums and means -/

lemma length_vecAdd (v u : List ℚ) : (vecAdd v u).length = min v.length u.length := by
  simp [vecAdd]

lemma getD_vecAdd (v u : List ℚ) (j : ℕ) (hv : j < v.length) (hu : j < u.length) :
    (vecAdd v u).getD j 0 = v.getD j 0 + u.getD j 0 := by
  induction v generalizing u j with
  | nil => simp at hv
  | cons a v ih =>
    cases u with
    | nil => simp at hu
    | cons b u =>
      cases j with
      | zero => simp [vecAdd]
      | succ j =>
        simp only [vecAdd, List.zipWith_cons_cons, List.getD_cons_succ]
        exact ih u j (by simpa using hv) (by simpa using hu)

lemma length_vecSum {d : ℕ} :
    ∀ rows : List (List ℚ), (∀ r ∈ rows, r.length = d) → rows ≠ [] →
      (vecSum rows).length = d
  | [], _, hne => absurd rfl hne
  | [v], h, _ => h v (by simp)
  | v :: w :: rest, h, _ => by
    have ih := length_vecSum (w :: rest)
      (fun r hr => h r (List.mem_cons_of_mem _ hr)) (by simp)
    have hv := h v (by simp)
    simp [vecSum, length_vecAdd, ih, hv]

lemma getD_vecSum {d : ℕ} (j : ℕ) (hj : j < d) :
    ∀ rows : List (List ℚ), (∀ r ∈ rows, r.length = d) →
      (vecSum rows).getD j 0 = (rows.map (fun r => r.getD j 0)).sum
  | [], _ => by simp [vecSum]
  | [v], _ => by simp [vecSum]
  | v :: w :: rest, h => by
    have hrest : ∀ r ∈ w :: rest, r.length = d :=
      fun r hr => h r (List.mem_cons_of_mem _ hr)
    have hlen := length_vecSum (w :: rest) hrest (by simp)
    rw [show vecSum (v :: w :: rest) = vecAdd v (vecSum (w :: rest)) from rfl,
      getD_vecAdd _ _ j (by rw [h v (by simp)]; exact hj) (by rw [hlen]; exact hj),
      getD_vecSum j hj (w :: rest) hrest]
    simp

/-! ## Helper lemmas about row selection -/

lemma length_selectRows :
    ∀ (ls : List Int) (es : List (List ℚ)) (lab : Int), es.length = ls.length →
      (selectRows ls es lab).length = ls.count lab
  | [], _, lab, _ => by simp [selectRows]
  | _ :: _, [], _, h => by simp at h
  | a :: ls, e :: es, lab, h => by
    have ih := length_selectRows ls es lab (by simpa using h)
    simp only [selectRows, List.zip_cons_cons, List.filter_cons] at ih ⊢
    by_cases hae : a = lab
    · simp [hae, List.count_cons, ih]
    · simp [hae, List.count_cons, ih]

lemma mem_zip_right : ∀ {ls : List Int} {es : List (List ℚ)} {p : Int × List ℚ},
    p ∈ ls.zip es → p.2 ∈ es
  | [], _, _, h => by simp at h
  | _ :: _, [], _, h => by simp at h
  | _ :: ls, e :: es, p, h => by
    rcases List.mem_cons.mp h with h | h
    · simp [h]
    · exact List.mem_cons_of_mem _ (mem_zip_right h)

lemma mem_of_mem_selectRows {ls : List Int} {es : List (List ℚ)} {lab : Int}
    {r : List ℚ} (h : r ∈ selectRows ls es lab) : r ∈ es := by
  unfold selectRows at h
  obtain ⟨p, hp, rfl⟩ := List.mem_map.mp h
  exact mem_zip_right (List.mem_of_mem_filter hp)

lemma ctv_row (ls : List Int) (es : List (List ℚ)) (i : ℕ)
    (hi : i < (npUnique ls).length) :
    (calculate_topic_vectors ls es).getD i [] =
      vecMean (selectRows ls es ((npUnique ls).getD i 0)) := by
  unfold calculate_topic_vectors
  rw [List.getD_eq_getElem _ _ (by simpa [calculate_topic_vectors] using hi),
    List.getElem_map, List.getD_eq_getElem _ _ hi]

lemma selectRows_ne_nil {ls : List Int} {es : List (List ℚ)} {lab : Int}
    (hn : es.length = ls.length) (hmem : lab ∈ ls) :
    selectRows ls es lab ≠ [] := by
  have hcount : 0 < ls.count lab := List.count_pos_iff.mpr hmem
  have hlen := length_selectRows ls es lab hn
  intro hnil
  rw [hnil] at hlen
  simp only [List.length_nil] at hlen
  omega

/-- C1: for a label array of length n and an n×d embedding matrix,
`calculate_topic_vectors` returns one row per distinct label (−1 included),
ordered by ascending label; every row has width d, and entry (i, j) is the
arithmetic mean — the sum divided by the count — of column j of the
embedding rows whose label equals the i-th smallest distinct label. -/
theorem calculate_topic_vectors_is_mean (ls : List Int) (es : List (List ℚ))
    (d : ℕ) (hn : es.length = ls.length) (hd : ∀ r ∈ es, r.length = d) :
    (calculate_topic_vectors ls es).length = (npUnique ls).length ∧
    (npUnique ls).Sorted (· < ·) ∧
    (∀ a, a ∈ npUnique ls ↔ a ∈ ls) ∧
    (∀ r ∈ calculate_topic_vectors ls es, r.length = d) ∧
    ∀ i, i < (npUnique ls).length → ∀ j, j < d →
      getE (calculate_topic_vectors ls es) i j =
        ((selectRows ls es ((npUnique ls).getD i 0)).map
            (fun r => r.getD j 0)).sum
          / (ls.count ((npUnique ls).getD i 0) : ℚ) := by
  refine ⟨by simp [calculate_topic_vectors], sorted_lt_npUnique ls,
    fun a => mem_npUnique, ?_, ?_⟩
  · intro r hr
    obtain ⟨lab, hlab, rfl⟩ := List.mem_map.mp hr
    have hne : selectRows ls es lab ≠ [] :=
      selectRows_ne_nil hn (mem_npUnique.mp hlab)
    have hrows : ∀ r ∈ selectRows ls es lab, r.length = d :=
      fun r hr => hd r (mem_of_mem_selectRows hr)
    simp [vecMean, length_vecSum _ hrows hne]
  · intro i hi j hj
    have hmem : (npUnique ls).getD i 0 ∈ npUnique ls := by
      rw [List.getD_eq_getElem _ _ hi]
      exact List.getElem_mem _
    set lab := (npUnique ls).getD i 0 with hlab
    have hne : selectRows ls es lab ≠ [] :=
      selectRows_ne_nil hn (mem_npUnique.mp hmem)
    have hrows : ∀ r ∈ selectRows ls es lab, r.length = d :=
      fun r hr => hd r (mem_of_mem_selectRows hr)
    have hvs : (vecSum (selectRows ls es lab)).length = d :=
      length_vecSum _ hrows hne
    rw [getE, ctv_row ls es i hi, ← hlab]
    unfold vecMean
    have hjlen : j < ((vecSum (selectRows ls es lab)).map
        (fun x => x / ((selectRows ls es lab).length : ℚ))).length := by
      rw [List.length_map, hvs]; exact hj
    rw [List.getD_eq_getElem _ _ hjlen, List.getElem_map,
      ← List.getD_eq_getElem _ 0 (by rw [hvs]; exact hj),
      getD_vecSum j hj _ hrows, length_selectRows ls es lab hn]

theorem calculate_topic_vectors_is_mean_witness :
    (([[0,0],[2,0],[0,2],[0,4],[10,10],[12,12]] : List (List ℚ)).length =
        ([0,0,1,1,-1,-1] : List Int).length) ∧
    (∀ r ∈ ([[0,0],[2,0],[0,2],[0,4],[10,10],[12,12]] : List (List ℚ)),
        r.length = 2) ∧
    ((calculate_topic_vectors [0,0,1,1,-1,-1]
        [[0,0],[2,0],[0,2],[0,4],[10,10],[12,12]]).length =
      (npUnique [0,0,1,1,-1,-1]).length ∧
    (npUnique [0,0,1,1,-1,-1]).Sorted (· < ·) ∧
    (∀ a, a ∈ npUnique [0,0,1,1,-1,-1] ↔ a ∈ ([0,0,1,1,-1,-1] : List Int)) ∧
    (∀ r ∈ calculate_topic_vectors [0,0,1,1,-1,-1]
        [[0,0],[2,0],[0,2],[0,4],[10,10],[12,12]], r.length = 2) ∧
    ∀ i, i < (npUnique [0,0,1,1,-1,-1]).length → ∀ j, j < 2 →
      getE (calculate_topic_vectors [0,0,1,1,-1,-1]
          [[0,0],[2,0],[0,2],[0,4],[10,10],[12,12]]) i j =
        ((selectRows [0,0,1,1,-1,-1] [[0,0],[2,0],[0,2],[0,4],[10,10],[12,12]]
            ((npUnique [0,0,1,1,-1,-1]).getD i 0)).map
          (fun r => r.getD j 0)).sum
          / (([0,0,1,1,-1,-1] : List Int).count
              ((npUnique [0,0,1,1,-1,-1]).getD i 0) : ℚ)) :=
  ⟨by decide, by decide,
    calculate_topic_vectors_is_mean [0,0,1,1,-1,-1]
      [[0,0],[2,0],[0,2],[0,4],[10,10],[12,12]] 2 (by decide) (by decide)⟩

/-- C8: the topic sizes computed by `_estimate_parameters` sum to the number
of documents, for every label array (including all-outlier arrays). -/
theorem topicSizes_sum_eq_length (ls : List Int) :
    (topicSizes ls).sum = ls.length := by
  unfold topicSizes npUnique
  rw [((List.perm_insertionSort (· ≤ ·) ls.dedup).map
      (fun label => ls.count label)).sum_eq]
  exact List.sum_map_count_dedup_eq_length ls

lemma length_ctfidf_ne_two (idfW : ℕ → ℚ) (ls : List Int)
    (dtm : List (List ℚ)) (h2 : (npUnique ls).length ≠ 2) :
    (soft_ctf_idf idfW (label_binarize ls (npUnique ls)) dtm).length =
      (npUnique ls).length := by
  unfold soft_ctf_idf
  rw [List.length_map, List.length_range]
  unfold label_binarize
  by_cases h1 : (npUnique ls).length = 1
  · rw [if_pos h1, h1]
    cases ls with
    | nil => simp [npUnique] at h1
    | cons a t => simp [numCols]
  · rw [if_neg h1, if_neg h2]
    cases ls with
    | nil => simp [numCols, npUnique]
    | cons a t => simp [numCols]

lemma length_ctfidf_two (idfW : ℕ → ℚ) (ls : List Int) (dtm : List (List ℚ))
    (h2 : (npUnique ls).length = 2) :
    (soft_ctf_idf idfW (label_binarize ls (npUnique ls)) dtm).length = 1 := by
  unfold soft_ctf_idf
  rw [List.length_map, List.length_range]
  have hls : ls ≠ [] := by
    intro h
    subst h
    simp [npUnique] at h2
  cases hlsc : ls with
  | nil => exact absurd hlsc hls
  | cons a t =>
    rw [← hlsc]
    unfold label_binarize
    rw [if_neg (by omega), if_pos h2, hlsc]
    simp [numCols]

lemma length_centroid_components (idfW : ℕ → ℚ) (sim : List ℚ → List ℚ → ℚ)
    (ls : List Int) (es dtm ve : List (List ℚ)) :
    (componentsOf .centroid idfW sim ls es dtm ve).length =
      (npUnique ls).length := by
  simp [componentsOf, cluster_centroid_distance, calculate_topic_vectors]

lemma soft_ctf_idf_row_width (idfW : ℕ → ℚ) (dt dtm : List (List ℚ)) :
    ∀ r ∈ soft_ctf_idf idfW dt dtm, r.length = numCols dtm := by
  intro r hr
  obtain ⟨t, _, rfl⟩ := List.mem_map.mp hr
  simp

lemma head_npUnique_neg_one {ls : List Int}
    (hneg : ∀ x ∈ ls, (-1 : Int) ≤ x) (hmem : (-1 : Int) ∈ ls) :
    (npUnique ls).headD 0 = -1 := by
  have hmem' : (-1 : Int) ∈ npUnique ls := mem_npUnique.mpr hmem
  rcases h : npUnique ls with _ | ⟨c, rest⟩
  · rw [h] at hmem'; simp at hmem'
  · have hsorted := sorted_le_npUnique ls
    rw [h] at hsorted hmem'
    have hc : c ∈ ls := mem_npUnique.mp (by rw [h]; exact List.mem_cons_self c rest)
    have h1 : (-1 : Int) ≤ c := hneg c hc
    rcases List.mem_cons.mp hmem' with hceq | hrest
    · simp [hceq.symm]
    · have h2 : c ≤ -1 := (List.sorted_cons.mp hsorted).1 _ hrest
      simp [le_antisymm h2 h1]

/-- C7 (amended): the class list of `_estimate_parameters` is the strictly
ascending, duplicate-free list of exactly the labels occurring in the input,
with −1 first whenever it occurs (labels obeying the clusterer's convention
of being at least −1); topic sizes and topic vectors have one row per class,
the size at position i counts the documents of the i-th class, and the
term-importance matrix has one row per class under the centroid strategy,
and under ctfidf except when exactly two distinct labels are present, where
sklearn's binary label_binarize collapses it to a single row. The original
claim (importance rows aligned for every input under both strategies) fails
at two-class ctfidf fits: see the counterexample. -/
theorem estimate_classes_sorted_aligned (ls : List Int)
    (es dtm ve : List (List ℚ)) (idfW : ℕ → ℚ)
    (sim : List ℚ → List ℚ → ℚ) (hneg : ∀ x ∈ ls, (-1 : Int) ≤ x) :
    (npUnique ls).Sorted (· < ·) ∧
    (npUnique ls).Nodup ∧
    (∀ a, a ∈ npUnique ls ↔ a ∈ ls) ∧
    ((-1 : Int) ∈ ls → (npUnique ls).headD 0 = -1) ∧
    (topicSizes ls).length = (npUnique ls).length ∧
    (calculate_topic_vectors ls es).length = (npUnique ls).length ∧
    (componentsOf .centroid idfW sim ls es dtm ve).length =
      (npUnique ls).length ∧
    ((npUnique ls).length ≠ 2 →
      (componentsOf .ctfidf idfW sim ls es dtm ve).length =
        (npUnique ls).length) ∧
    ((npUnique ls).length = 2 →
      (componentsOf .ctfidf idfW sim ls es dtm ve).length = 1) ∧
    ∀ i, i < (npUnique ls).length →
      (topicSizes ls).getD i 0 = ls.count ((npUnique ls).getD i 0) := by
  refine ⟨sorted_lt_npUnique ls, nodup_npUnique ls, fun a => mem_npUnique,
    fun hm => head_npUnique_neg_one hneg hm,
    by simp [topicSizes], by simp [calculate_topic_vectors],
    length_centroid_components idfW sim ls es dtm ve,
    fun h2 => length_ctfidf_ne_two idfW ls dtm h2,
    fun h2 => length_ctfidf_two idfW ls dtm h2, ?_⟩
  intro i hi
  unfold topicSizes
  rw [List.getD_eq_getElem _ _ (by simpa [topicSizes] using hi),
    List.getElem_map, List.getD_eq_getElem _ _ hi]

/-- C7 counterexample: labels [3, 3, 7] produce the two-class list [3, 7],
and under the ctfidf strategy the importance matrix then has a single row,
so it cannot be index-aligned with the two classes. -/
theorem estimate_alignment_counterexample :
    (componentsOf .ctfidf (fun _ => 1) (fun _ _ => 0) [3,3,7] [[1],[1],[1]]
      [[1],[1],[1]] [[1]]).length ≠ (npUnique [3,3,7]).length := by decide

theorem estimate_classes_sorted_aligned_witness :
    (∀ x ∈ ([2,-1,0,0] : List Int), (-1 : Int) ≤ x) ∧
    ((npUnique [2,-1,0,0]).Sorted (· < ·) ∧
    (npUnique [2,-1,0,0]).Nodup ∧
    (∀ a, a ∈ npUnique [2,-1,0,0] ↔ a ∈ ([2,-1,0,0] : List Int)) ∧
    ((-1 : Int) ∈ ([2,-1,0,0] : List Int) →
      (npUnique [2,-1,0,0]).headD 0 = -1) ∧
    (topicSizes [2,-1,0,0]).length = (npUnique [2,-1,0,0]).length ∧
    (calculate_topic_vectors [2,-1,0,0] [[1],[2],[3],[4]]).length =
      (npUnique [2,-1,0,0]).length ∧
    (componentsOf .centroid (fun _ => 1) (fun _ _ => 0) [2,-1,0,0]
        [[1],[2],[3],[4]] [[1],[0],[1],[1]] [[1]]).length =
      (npUnique [2,-1,0,0]).length ∧
    ((npUnique [2,-1,0,0]).length ≠ 2 →
      (componentsOf .ctfidf (fun _ => 1) (fun _ _ => 0) [2,-1,0,0]
          [[1],[2],[3],[4]] [[1],[0],[1],[1]] [[1]]).length =
        (npUnique [2,-1,0,0]).length) ∧
    ((npUnique [2,-1,0,0]).length = 2 →
      (componentsOf .ctfidf (fun _ => 1) (fun _ _ => 0) [2,-1,0,0]
          [[1],[2],[3],[4]] [[1],[0],[1],[1]] [[1]]).length = 1) ∧
    ∀ i, i < (npUnique [2,-1,0,0]).length →
      (topicSizes [2,-1,0,0]).getD i 0 =
        ([2,-1,0,0] : List Int).count ((npUnique [2,-1,0,0]).getD i 0)) :=
  ⟨by decide,
    estimate_classes_sorted_aligned [2,-1,0,0] [[1],[2],[3],[4]]
      [[1],[0],[1],[1]] [[1]] (fun _ => 1) (fun _ _ => 0) (by decide)⟩

/-- C9: passing a bare integer where the encoder/first constructor argument
is expected makes `ClusteringTopicModel.__init__` fail immediately with the
`TypeError` carrying `integer_message` (the text explaining that the
clustering model determines the number of topics unless `n_reduce_to` is
given): no model value is constructed, so no pipeline stage can execute. -/
theorem init_rejects_integer
    (st : String → List String → Except String (List (List ℚ)))
    (dv : List String → Except String (List (List ℚ) × List String))
    (dc : List (List ℚ) → Except String (List Int))
    (dr : List (List ℚ) → Except String (List (List ℚ)))
    (agglo : List (List ℚ) → ℕ → List ℕ)
    (sim : List ℚ → List ℚ → ℚ) (idfW : ℕ → ℚ) (n : Int)
    (vect : Option (List String → Except String (List (List ℚ) × List String)))
    (dim : Option (List (List ℚ) → Except String (List (List ℚ))))
    (clus : Option (List (List ℚ) → Except String (List Int)))
    (fi : FeatureImportance) (nrt : Option ℕ) :
    ClusteringTopicModel_init st dv dc dr agglo sim idfW (.intArg n) vect dim
      clus fi nrt = .error integer_message := rfl

lemma numCols_eq {dtm : List (List ℚ)} {v : ℕ} (hne : dtm ≠ [])
    (h : ∀ r ∈ dtm, r.length = v) : numCols dtm = v := by
  rcases dtm with _ | ⟨r, rest⟩
  · exact absurd rfl hne
  · simpa [numCols] using h r (List.mem_cons_self r rest)

/-- C4 (amended): for every label array and well-shaped inputs, the
term-importance matrix has one row per distinct topic label under the
centroid strategy, and under the ctfidf strategy whenever the number of
distinct labels is not exactly two; with exactly two distinct labels the
binary special case of sklearn's label_binarize collapses the indicator to
one column, so the ctfidf matrix has a single row. Every row has one column
per vocabulary term under both strategies. The original claim (k rows under
both strategies for every fitted model) fails at two-class fits: see the
counterexample. -/
theorem components_shape (ls : List Int) (es dtm ve : List (List ℚ)) (v : ℕ)
    (idfW : ℕ → ℚ) (sim : List ℚ → List ℚ → ℚ) (hls : ls ≠ [])
    (hdtm_len : dtm.length = ls.length) (hdtm : ∀ r ∈ dtm, r.length = v)
    (hve : ve.length = v) :
    ((componentsOf .centroid idfW sim ls es dtm ve).length =
        (npUnique ls).length ∧
      ∀ r ∈ componentsOf .centroid idfW sim ls es dtm ve, r.length = v) ∧
    ((npUnique ls).length ≠ 2 →
      (componentsOf .ctfidf idfW sim ls es dtm ve).length =
        (npUnique ls).length) ∧
    ((npUnique ls).length = 2 →
      (componentsOf .ctfidf idfW sim ls es dtm ve).length = 1) ∧
    (∀ r ∈ componentsOf .ctfidf idfW sim ls es dtm ve, r.length = v) := by
  have hdne : dtm ≠ [] := by
    intro h
    rw [h] at hdtm_len
    exact hls (List.length_eq_zero.mp hdtm_len.symm)
  refine ⟨⟨length_centroid_components idfW sim ls es dtm ve, ?_⟩,
    fun h2 => length_ctfidf_ne_two idfW ls dtm h2,
    fun h2 => length_ctfidf_two idfW ls dtm h2, ?_⟩
  · intro r hr
    obtain ⟨t, _, rfl⟩ := List.mem_map.mp hr
    simp [hve]
  · intro r hr
    rw [show componentsOf .ctfidf idfW sim ls es dtm ve =
      soft_ctf_idf idfW (label_binarize ls (npUnique ls)) dtm from rfl] at hr
    rw [soft_ctf_idf_row_width idfW _ dtm r hr]
    exact numCols_eq hdne hdtm

/-- C4 counterexample: labels [0, 0, -1] have exactly two distinct values
(classes [-1, 0]), so under the ctfidf strategy the document×topic
indicator built by sklearn's label_binarize is a single column and the
importance matrix has 1 row, not 2: the claimed k×v shape fails. -/
theorem components_shape_counterexample :
    (componentsOf .ctfidf (fun _ => 1) (fun _ _ => 0) [0,0,-1] [[1],[1],[1]]
      [[1,2],[3,4],[5,6]] [[7,8],[9,9]]).length ≠
      (npUnique [0,0,-1]).length := by decide

theorem components_shape_witness :
    (([0,0,-1,7] : List Int) ≠ []) ∧
    (([[1,2],[3,4],[5,6],[7,7]] : List (List ℚ)).length =
      ([0,0,-1,7] : List Int).length) ∧
    (∀ r ∈ ([[1,2],[3,4],[5,6],[7,7]] : List (List ℚ)), r.length = 2) ∧
    (([[7,8],[9,9]] : List (List ℚ)).length = 2) ∧
    (((componentsOf .centroid (fun _ => 1) (fun _ _ => 0) [0,0,-1,7]
          [[1],[1],[1],[1]] [[1,2],[3,4],[5,6],[7,7]] [[7,8],[9,9]]).length =
        (npUnique [0,0,-1,7]).length ∧
      ∀ r ∈ componentsOf .centroid (fun _ => 1) (fun _ _ => 0) [0,0,-1,7]
          [[1],[1],[1],[1]] [[1,2],[3,4],[5,6],[7,7]] [[7,8],[9,9]],
        r.length = 2) ∧
    ((npUnique [0,0,-1,7]).length ≠ 2 →
      (componentsOf .ctfidf (fun _ => 1) (fun _ _ => 0) [0,0,-1,7]
          [[1],[1],[1],[1]] [[1,2],[3,4],[5,6],[7,7]] [[7,8],[9,9]]).length =
        (npUnique [0,0,-1,7]).length) ∧
    ((npUnique [0,0,-1,7]).length = 2 →
      (componentsOf .ctfidf (fun _ => 1) (fun _ _ => 0) [0,0,-1,7]
          [[1],[1],[1],[1]] [[1,2],[3,4],[5,6],[7,7]] [[7,8],[9,9]]).length =
        1) ∧
    (∀ r ∈ componentsOf .ctfidf (fun _ => 1) (fun _ _ => 0) [0,0,-1,7]
        [[1],[1],[1],[1]] [[1,2],[3,4],[5,6],[7,7]] [[7,8],[9,9]],
      r.length = 2)) :=
  ⟨by decide, by decide, by decide, by decide,
    components_shape [0,0,-1,7] [[1],[1],[1],[1]] [[1,2],[3,4],[5,6],[7,7]]
      [[7,8],[9,9]] 2 (fun _ => 1) (fun _ _ => 0) (by decide) (by decide)
      (by decide) (by decide)⟩

/-! ## Helper lemmas about dict lookup and the merge mapping -/

lemma dictGet_cons_eq {v : Int} {d : List (Int × Int)} {k : Int} :
    dictGet ((k, v) :: d) k = some v := by
  simp [dictGet, List.find?_cons]

lemma dictGet_cons_ne {p : Int × Int} {d : List (Int × Int)} {k : Int}
    (h : p.1 ≠ k) : dictGet (p :: d) k = dictGet d k := by
  simp [dictGet, List.find?_cons, h]

lemma dictGet_identity {classes : List Int} {c : Int} (h : c ∈ classes) :
    dictGet (classes.map (fun c => (c, c))) c = some c := by
  induction classes with
  | nil => simp at h
  | cons a t ih =>
    by_cases hac : a = c
    · subst hac
      exact dictGet_cons_eq
    · rcases List.mem_cons.mp h with h1 | h1
      · exact absurd h1.symm hac
      · rw [List.map_cons, dictGet_cons_ne hac]
        exact ih h1

lemma mem_of_dictGet_identity_isSome {classes : List Int} {c : Int}
    (h : (dictGet (classes.map (fun c => (c, c))) c).isSome) : c ∈ classes := by
  induction classes with
  | nil => simp [dictGet] at h
  | cons a t ih =>
    by_cases hac : a = c
    · exact hac ▸ List.mem_cons_self a t
    · rw [List.map_cons, dictGet_cons_ne hac] at h
      exact List.mem_cons_of_mem a (ih h)

lemma dictGet_zip_mem : ∀ (ks vs : List Int), vs.length = ks.length →
    ∀ k ∈ ks, ∃ v ∈ vs, dictGet (ks.zip vs) k = some v
  | [], _, _, k, hk => by simp at hk
  | _ :: _, [], h, _, _ => by simp at h
  | a :: t, v :: vs, h, k, hk => by
    by_cases hka : a = k
    · subst hka
      exact ⟨v, List.mem_cons_self v vs, by
        rw [List.zip_cons_cons]; exact dictGet_cons_eq⟩
    · have hk' : k ∈ t := by
        rcases List.mem_cons.mp hk with h1 | h1
        · exact absurd h1.symm hka
        · exact h1
      obtain ⟨w, hw, hlook⟩ := dictGet_zip_mem t vs (by simpa using h) k hk'
      refine ⟨w, List.mem_cons_of_mem v hw, ?_⟩
      rw [List.zip_cons_cons, dictGet_cons_ne hka]
      exact hlook

lemma dictGet_zip_attains : ∀ (ks vs : List Int), ks.Nodup →
    vs.length = ks.length → ∀ w ∈ vs, ∃ k ∈ ks, dictGet (ks.zip vs) k = some w
  | [], _, _, h, w, hw => by
    rw [List.length_nil, List.length_eq_zero] at h
    subst h; simp at hw
  | _ :: _, [], _, h, _, hw => by simp at h
  | a :: t, v :: vs, hnd, h, w, hw => by
    rcases List.mem_cons.mp hw with rfl | hw'
    · exact ⟨a, List.mem_cons_self a t, by
        rw [List.zip_cons_cons]; exact dictGet_cons_eq⟩
    · obtain ⟨k, hk, hlook⟩ :=
        dictGet_zip_attains t vs (List.nodup_cons.mp hnd).2 (by simpa using h)
          w hw'
      have hka : a ≠ k := fun hh => (List.nodup_cons.mp hnd).1 (hh ▸ hk)
      refine ⟨k, List.mem_cons_of_mem a hk, ?_⟩
      rw [List.zip_cons_cons, dictGet_cons_ne hka]
      exact hlook

lemma mem_of_dictGet_zip_isSome : ∀ {ks vs : List Int} {k : Int},
    (dictGet (ks.zip vs) k).isSome → k ∈ ks
  | [], _, k, h => by simp [dictGet] at h
  | _ :: _, [], k, h => by simp [dictGet] at h
  | a :: t, v :: vs, k, h => by
    by_cases hka : a = k
    · exact hka ▸ List.mem_cons_self a t
    · rw [List.zip_cons_cons, dictGet_cons_ne hka] at h
      exact List.mem_cons_of_mem a (mem_of_dictGet_zip_isSome h)

lemma mem_nonOutlier {classes : List Int} {k : Int} :
    k ∈ nonOutlier classes ↔ k ∈ classes ∧ k ≠ -1 := by
  simp [nonOutlier]

lemma nodup_nonOutlier {classes : List Int} (h : classes.Nodup) :
    (nonOutlier classes).Nodup := h.filter _

lemma length_interestingOf : ∀ (classes : List Int) (tv : List (List ℚ)),
    tv.length = classes.length →
    (interestingOf classes tv).length = (nonOutlier classes).length
  | [], _, _ => rfl
  | _ :: _, [], h => by simp at h
  | c :: cs, t :: ts, h => by
    have ih := length_interestingOf cs ts (by simpa using h)
    by_cases hc : c = -1
    · simpa [interestingOf, nonOutlier, List.zip_cons_cons, List.filter_cons,
        hc] using ih
    · simpa [interestingOf, nonOutlier, List.zip_cons_cons, List.filter_cons,
        hc] using ih

lemma dictGet_append_pref {classes : List Int} {rest : List (Int × Int)}
    {k : Int} (hk : k ≠ -1) :
    dictGet ((if (-1 : Int) ∈ classes then [((-1 : Int), (-1 : Int))] else [])
      ++ rest) k = dictGet rest k := by
  by_cases h : (-1 : Int) ∈ classes
  · rw [if_pos h, List.singleton_append, dictGet_cons_ne (fun hh => hk hh.symm)]
  · rw [if_neg h, List.nil_append]

lemma merge_else (agglo : List (List ℚ) → ℕ → List ℕ) (classes : List Int)
    (tv : List (List ℚ)) (nt m : ℕ) (h : ¬ nt ≤ m) :
    merge_agglomerative agglo classes tv nt m =
      (if (-1 : Int) ∈ classes then [((-1 : Int), (-1 : Int))] else []) ++
        (nonOutlier classes).zip
          ((agglo (interestingOf classes tv) m).map Int.ofNat) := by
  simp [merge_agglomerative, h]

lemma dictGet_merge_neg_one (agglo : List (List ℚ) → ℕ → List ℕ)
    (classes : List Int) (tv : List (List ℚ)) (nt m : ℕ)
    (hm : (-1 : Int) ∈ classes) :
    dictGet (merge_agglomerative agglo classes tv nt m) (-1) = some (-1) := by
  by_cases h : nt ≤ m
  · rw [show merge_agglomerative agglo classes tv nt m =
        classes.map (fun c => (c, c)) by simp [merge_agglomerative, h]]
    exact dictGet_identity hm
  · rw [merge_else agglo classes tv nt m h, if_pos hm, List.singleton_append]
    exact dictGet_cons_eq

lemma dictGet_merge_isSome (agglo : List (List ℚ) → ℕ → List ℕ)
    (classes : List Int) (tv : List (List ℚ)) (nt m : ℕ)
    (hlen : (agglo (interestingOf classes tv) m).length =
      (nonOutlier classes).length)
    {k : Int} (hk : k ∈ classes) :
    (dictGet (merge_agglomerative agglo classes tv nt m) k).isSome := by
  by_cases h : nt ≤ m
  · rw [show merge_agglomerative agglo classes tv nt m =
        classes.map (fun c => (c, c)) by simp [merge_agglomerative, h]]
    rw [dictGet_identity hk]
    rfl
  · rw [merge_else agglo classes tv nt m h]
    by_cases hkneg : k = -1
    · subst hkneg
      rw [if_pos hk, List.singleton_append, dictGet_cons_eq]
      rfl
    · rw [dictGet_append_pref hkneg]
      obtain ⟨v, _, hv⟩ := dictGet_zip_mem (nonOutlier classes)
        ((agglo (interestingOf classes tv) m).map Int.ofNat)
        (by rw [List.length_map]; exact hlen) k
        (mem_nonOutlier.mpr ⟨hk, hkneg⟩)
      rw [hv]
      rfl

lemma mem_of_dictGet_merge_isSome (agglo : List (List ℚ) → ℕ → List ℕ)
    (classes : List Int) (tv : List (List ℚ)) (nt m : ℕ) {k : Int}
    (h : (dictGet (merge_agglomerative agglo classes tv nt m) k).isSome) :
    k ∈ classes := by
  by_cases hb : nt ≤ m
  · rw [show merge_agglomerative agglo classes tv nt m =
        classes.map (fun c => (c, c)) by simp [merge_agglomerative, hb]] at h
    exact mem_of_dictGet_identity_isSome h
  · rw [merge_else agglo classes tv nt m hb] at h
    by_cases hkneg : k = -1
    · subst hkneg
      by_cases hm : (-1 : Int) ∈ classes
      · exact hm
      · rw [if_neg hm, List.nil_append] at h
        exact (mem_nonOutlier.mp (mem_of_dictGet_zip_isSome h)).1
    · rw [dictGet_append_pref hkneg] at h
      exact (mem_nonOutlier.mp (mem_of_dictGet_zip_isSome h)).1

lemma applyMapping_eq_map {mp : List (Int × Int)} :
    ∀ {ls : List Int}, (∀ l ∈ ls, (dictGet mp l).isSome) →
      applyMapping mp ls = some (ls.map (fun l => (dictGet mp l).getD 0))
  | [], _ => rfl
  | l :: rest, h => by
    obtain ⟨v, hv⟩ := Option.isSome_iff_exists.mp
      (h l (List.mem_cons_self l rest))
    have ih := applyMapping_eq_map
      (fun x hx => h x (List.mem_cons_of_mem l hx))
    simp [applyMapping, hv, ih]

/-- C10: whatever branch the merger takes, the returned dict is defined on
exactly the sorted class list of the current labels, so the element-wise
remapping of `fit_predict` never raises a `KeyError` and returns an array of
the same length (assuming the external agglomerative clusterer returns one
label per input vector, its documented contract). -/
theorem merge_mapping_total (agglo : List (List ℚ) → ℕ → List ℕ)
    (ls : List Int) (tv : List (List ℚ)) (nt m : ℕ)
    (hlen : (agglo (interestingOf (npUnique ls) tv) m).length =
      (nonOutlier (npUnique ls)).length) :
    (∀ k : Int,
      (dictGet (merge_agglomerative agglo (npUnique ls) tv nt m) k).isSome ↔
        k ∈ npUnique ls) ∧
    ∃ nl, applyMapping (merge_agglomerative agglo (npUnique ls) tv nt m) ls =
        some nl ∧ nl.length = ls.length := by
  have hiff : ∀ k : Int,
      (dictGet (merge_agglomerative agglo (npUnique ls) tv nt m) k).isSome ↔
        k ∈ npUnique ls :=
    fun k => ⟨mem_of_dictGet_merge_isSome agglo _ tv nt m,
      fun hk => dictGet_merge_isSome agglo _ tv nt m hlen hk⟩
  refine ⟨hiff, ?_⟩
  have happ := applyMapping_eq_map
    (fun l hl => (hiff l).mpr (mem_npUnique.mpr hl))
  exact ⟨_, happ, by simp⟩

theorem merge_mapping_total_witness :
    ((((fun _ _ => [0, 1]) : List (List ℚ) → ℕ → List ℕ)
        (interestingOf (npUnique [-1,2,2,4]) [[1],[2],[3]]) 1).length =
      (nonOutlier (npUnique [-1,2,2,4])).length) ∧
    ((∀ k : Int,
      (dictGet (merge_agglomerative (fun _ _ => [0, 1]) (npUnique [-1,2,2,4])
        [[1],[2],[3]] 3 1) k).isSome ↔ k ∈ npUnique [-1,2,2,4]) ∧
    ∃ nl, applyMapping (merge_agglomerative (fun _ _ => [0, 1])
        (npUnique [-1,2,2,4]) [[1],[2],[3]] 3 1) [-1,2,2,4] = some nl ∧
      nl.length = ([-1,2,2,4] : List Int).length) :=
  ⟨by decide,
    merge_mapping_total (fun _ _ => [0, 1]) [-1,2,2,4] [[1],[2],[3]] 3 1
      (by decide)⟩

/-- C2 (amended): when the requested target is at least the TOTAL number of
current topics — the row count of the components matrix, which counts the
outlier class −1 as well — `_merge_agglomerative` returns the identity dict
on the classes and never consults the agglomerative clustering collaborator
(the result is the same for every collaborator). The original claim, with
the non-outlier count, fails: see the counterexample. -/
theorem merge_identity_when_target_ge_total
    (agglo agglo2 : List (List ℚ) → ℕ → List ℕ) (classes : List Int)
    (tv : List (List ℚ)) (m : ℕ) (h : classes.length ≤ m) :
    merge_agglomerative agglo classes tv classes.length m =
      classes.map (fun c => (c, c)) ∧
    (∀ c ∈ classes,
      dictGet (merge_agglomerative agglo classes tv classes.length m) c =
        some c) ∧
    merge_agglomerative agglo classes tv classes.length m =
      merge_agglomerative agglo2 classes tv classes.length m := by
  have h1 : merge_agglomerative agglo classes tv classes.length m =
      classes.map (fun c => (c, c)) := by simp [merge_agglomerative, h]
  have h2 : merge_agglomerative agglo2 classes tv classes.length m =
      classes.map (fun c => (c, c)) := by simp [merge_agglomerative, h]
  exact ⟨h1, fun c hc => by rw [h1]; exact dictGet_identity hc,
    by rw [h1, h2]⟩

theorem merge_identity_when_target_ge_total_witness :
    (([-1,0,1] : List Int).length ≤ 3) ∧
    (merge_agglomerative (fun _ k => List.range k) [-1,0,1] [[1],[2],[3]]
        ([-1,0,1] : List Int).length 3 =
      ([-1,0,1] : List Int).map (fun c => (c, c)) ∧
    (∀ c ∈ ([-1,0,1] : List Int),
      dictGet (merge_agglomerative (fun _ k => List.range k) [-1,0,1]
        [[1],[2],[3]] ([-1,0,1] : List Int).length 3) c = some c) ∧
    merge_agglomerative (fun _ k => List.range k) [-1,0,1] [[1],[2],[3]]
        ([-1,0,1] : List Int).length 3 =
      merge_agglomerative (fun _ _ => []) [-1,0,1] [[1],[2],[3]]
        ([-1,0,1] : List Int).length 3) :=
  ⟨by decide,
    merge_identity_when_target_ge_total (fun _ k => List.range k)
      (fun _ _ => []) [-1,0,1] [[1],[2],[3]] 3 (by decide)⟩

/-- C2 counterexample: classes [-1, 3, 5], so the number of non-outlier
topics is 2 and the components matrix has 3 rows. A merge request with
target 2 satisfies the claim's precondition (target ≥ non-outlier count),
yet the source condition n_topics <= n_reduce_to compares against 3, so the
clustering branch runs: the result depends on the clustering collaborator
(it IS invoked), and the mapping is not the identity — label 3 is sent to a
fresh cluster index (0 here), not to itself. Any output of the real
clusterer lies in {0, 1}, so 3 can never map to 3. -/
theorem merge_identity_counterexample :
    ((nonOutlier [-1,3,5]).length ≤ 2) ∧
    dictGet (merge_agglomerative (fun _ k => List.range k) [-1,3,5]
      [[1],[2],[3]] ([-1,3,5] : List Int).length 2) 3 ≠ some 3 ∧
    merge_agglomerative (fun _ k => List.range k) [-1,3,5] [[1],[2],[3]]
        ([-1,3,5] : List Int).length 2 ≠
      merge_agglomerative (fun _ k => (List.range k).reverse) [-1,3,5]
        [[1],[2],[3]] ([-1,3,5] : List Int).length 2 := by decide

/-- C3: a non-trivial merge (source condition: target below the components
row count, here the class count) followed by the element-wise remapping of
`fit_predict` yields a label array of the same length with EXACTLY the
requested number of distinct non-outlier labels; −1, when present before,
is still present, is mapped to −1 by the dict, and is never produced from a
content topic. The clusterer hypotheses are the documented contract of
`AgglomerativeClustering.fit_predict` with `n_clusters = m`: one label per
input vector, labels below `m`, every cluster inhabited. -/
theorem merge_reduces_to_target (agglo : List (List ℚ) → ℕ → List ℕ)
    (ls : List Int) (tv : List (List ℚ)) (m : ℕ)
    (hnontriv : m < (npUnique ls).length)
    (hlen : (agglo (interestingOf (npUnique ls) tv) m).length =
      (nonOutlier (npUnique ls)).length)
    (hlt : ∀ x ∈ agglo (interestingOf (npUnique ls) tv) m, x < m)
    (hcov : ∀ j, j < m → j ∈ agglo (interestingOf (npUnique ls) tv) m) :
    ∃ nl, applyMapping (merge_agglomerative agglo (npUnique ls) tv
        (npUnique ls).length m) ls = some nl ∧
      nl.length = ls.length ∧
      ((nl.filter (fun x => x ≠ -1)).toFinset).card = m ∧
      ((-1 : Int) ∈ ls → (-1 : Int) ∈ nl ∧
        dictGet (merge_agglomerative agglo (npUnique ls) tv
          (npUnique ls).length m) (-1) = some (-1)) ∧
      (∀ x ∈ nl, x = -1 → (-1 : Int) ∈ ls) := by
  set classes := npUnique ls with hclasses
  set newlab := agglo (interestingOf classes tv) m with hnewlab
  set newInts := newlab.map Int.ofNat with hnewInts
  set mapping := merge_agglomerative agglo classes tv classes.length m
    with hmapping
  have hb : ¬ classes.length ≤ m := not_le.mpr hnontriv
  have hmrg : mapping =
      (if (-1 : Int) ∈ classes then [((-1 : Int), (-1 : Int))] else []) ++
        (nonOutlier classes).zip newInts := by
    rw [hmapping]
    exact merge_else agglo classes tv classes.length m hb
  have hlenInts : newInts.length = (nonOutlier classes).length := by
    rw [hnewInts, List.length_map]
    exact hlen
  have hnodupNO : (nonOutlier classes).Nodup :=
    nodup_nonOutlier (nodup_npUnique ls)
  have hlookNO : ∀ k ∈ nonOutlier classes,
      ∃ v ∈ newInts, dictGet mapping k = some v := by
    intro k hk
    obtain ⟨v, hv, hvl⟩ := dictGet_zip_mem _ _ hlenInts k hk
    exact ⟨v, hv, by
      rw [hmrg, dictGet_append_pref (mem_nonOutlier.mp hk).2]
      exact hvl⟩
  have hattain : ∀ w ∈ newInts,
      ∃ k ∈ nonOutlier classes, dictGet mapping k = some w := by
    intro w hw
    obtain ⟨k, hk, hkl⟩ := dictGet_zip_attains _ _ hnodupNO hlenInts w hw
    exact ⟨k, hk, by
      rw [hmrg, dictGet_append_pref (mem_nonOutlier.mp hk).2]
      exact hkl⟩
  have hsome : ∀ l ∈ ls, (dictGet mapping l).isSome := fun l hl =>
    dictGet_merge_isSome agglo classes tv classes.length m hlen
      (mem_npUnique.mpr hl)
  have happ := applyMapping_eq_map hsome
  refine ⟨ls.map (fun l => (dictGet mapping l).getD 0), happ, by simp,
    ?_, ?_, ?_⟩
  · have hset : ((ls.map (fun l => (dictGet mapping l).getD 0)).filter
        (fun x => x ≠ -1)).toFinset = (Finset.range m).image Int.ofNat := by
      ext a
      simp only [List.mem_toFinset, List.mem_filter, List.mem_map,
        Finset.mem_image, Finset.mem_range, decide_eq_true_eq]
      constructor
      · rintro ⟨⟨l, hl, rfl⟩, hne⟩
        by_cases hlneg : l = -1
        · exfalso
          subst hlneg
          have hm1 : (-1 : Int) ∈ classes := mem_npUnique.mpr hl
          rw [dictGet_merge_neg_one agglo classes tv _ m hm1] at hne
          simp at hne
        · have hkNO : l ∈ nonOutlier classes :=
            mem_nonOutlier.mpr ⟨mem_npUnique.mpr hl, hlneg⟩
          obtain ⟨v, hv, hvl⟩ := hlookNO l hkNO
          rw [hnewInts] at hv
          obtain ⟨j, hj, rfl⟩ := List.mem_map.mp hv
          exact ⟨j, hlt j hj, by rw [hvl]; rfl⟩
      · rintro ⟨j, hjm, rfl⟩
        have hjmem : Int.ofNat j ∈ newInts := by
          rw [hnewInts]
          exact List.mem_map_of_mem Int.ofNat (hcov j hjm)
        obtain ⟨k, hk, hkl⟩ := hattain _ hjmem
        refine ⟨⟨k, mem_npUnique.mp (mem_nonOutlier.mp hk).1,
          by rw [hkl]; rfl⟩, ?_⟩
        intro hcontra
        have hjc : (j : Int) = -1 := hcontra
        omega
    rw [hset,
      Finset.card_image_of_injective _
        (fun a b hab => by simpa using congrArg Int.toNat hab),
      Finset.card_range]
  · intro hneg
    have hm1 : (-1 : Int) ∈ classes := mem_npUnique.mpr hneg
    have hl1 : dictGet mapping (-1) = some (-1) :=
      dictGet_merge_neg_one agglo classes tv _ m hm1
    exact ⟨List.mem_map.mpr ⟨-1, hneg, by rw [hl1]; rfl⟩, hl1⟩
  · intro x hx hxeq
    obtain ⟨l, hl, rfl⟩ := List.mem_map.mp hx
    by_cases hlneg : l = -1
    · exact hlneg ▸ hl
    · exfalso
      obtain ⟨v, hv, hvl⟩ := hlookNO l
        (mem_nonOutlier.mpr ⟨mem_npUnique.mpr hl, hlneg⟩)
      rw [hnewInts] at hv
      obtain ⟨j, hj, rfl⟩ := List.mem_map.mp hv
      rw [hvl] at hxeq
      simp at hxeq

theorem merge_reduces_to_target_witness :
    (1 < (npUnique [-1,0,0,5]).length) ∧
    ((((fun _ _ => [0, 0]) : List (List ℚ) → ℕ → List ℕ)
        (interestingOf (npUnique [-1,0,0,5]) [[1],[2],[3]]) 1).length =
      (nonOutlier (npUnique [-1,0,0,5])).length) ∧
    (∀ x ∈ (((fun _ _ => [0, 0]) : List (List ℚ) → ℕ → List ℕ)
        (interestingOf (npUnique [-1,0,0,5]) [[1],[2],[3]]) 1), x < 1) ∧
    (∀ j, j < 1 → j ∈ (((fun _ _ => [0, 0]) : List (List ℚ) → ℕ → List ℕ)
        (interestingOf (npUnique [-1,0,0,5]) [[1],[2],[3]]) 1)) ∧
    ∃ nl, applyMapping (merge_agglomerative (fun _ _ => [0, 0])
        (npUnique [-1,0,0,5]) [[1],[2],[3]] (npUnique [-1,0,0,5]).length 1)
        [-1,0,0,5] = some nl ∧
      nl.length = ([-1,0,0,5] : List Int).length ∧
      ((nl.filter (fun x => x ≠ -1)).toFinset).card = 1 ∧
      ((-1 : Int) ∈ ([-1,0,0,5] : List Int) → (-1 : Int) ∈ nl ∧
        dictGet (merge_agglomerative (fun _ _ => [0, 0]) (npUnique [-1,0,0,5])
          [[1],[2],[3]] (npUnique [-1,0,0,5]).length 1) (-1) = some (-1)) ∧
      (∀ x ∈ nl, x = -1 → (-1 : Int) ∈ ([-1,0,0,5] : List Int)) :=
  ⟨by decide, by decide, by decide, by decide,
    merge_reduces_to_target (fun _ _ => [0, 0]) [-1,0,0,5] [[1],[2],[3]] 1
      (by decide) (by decide) (by decide) (by decide)⟩

/-- C5 (amended): any exception raised by a collaborator stage makes
`fit_predict` return exactly that error (propagated unmodified), but fitted
state is NOT always left fully intact. Stage by stage: a document-encoding
or term-extraction failure leaves every field unchanged; a dimensionality
reduction or clustering failure leaves exactly the freshly extracted
document×term matrix overwritten (it is republished as soon as term
extraction succeeds) and every other field unchanged; a vocabulary-encoding
failure additionally leaves the freshly computed classes, topic sizes and
topic vectors published. The original claim (no fitted field of a previous
successful fit is overwritten on any collaborator failure) fails: see the
counterexample. -/
theorem fit_collaborator_failure_state (c : Collaborators)
    (fi : FeatureImportance) (nrt : Option ℕ) (docs : List String)
    (E : List (List ℚ)) (s : ModelState) (dtm : List (List ℚ))
    (vocab : List String) (e : String) :
    (c.encode docs = .error e →
      fit_predict c fi nrt docs none s = (.error e, s)) ∧
    (c.vectorize docs = .error e →
      fit_predict c fi nrt docs (some E) s = (.error e, s)) ∧
    (c.vectorize docs = .ok (dtm, vocab) → c.reduce E = .error e →
      fit_predict c fi nrt docs (some E) s =
        (.error e, { s with doc_term_matrix := some dtm })) ∧
    (∀ red, c.vectorize docs = .ok (dtm, vocab) → c.reduce E = .ok red →
      c.cluster red = .error e →
      fit_predict c fi nrt docs (some E) s =
        (.error e, { s with doc_term_matrix := some dtm })) ∧
    (∀ red L, c.vectorize docs = .ok (dtm, vocab) → c.reduce E = .ok red →
      c.cluster red = .ok L → c.encode vocab = .error e →
      fit_predict c fi nrt docs (some E) s =
        (.error e,
         { s with
           doc_term_matrix := some dtm
           classes_ := some (npUnique L)
           topic_sizes_ := some (topicSizes L)
           topic_vectors_ := some (calculate_topic_vectors L E) })) := by
  refine ⟨?_, ?_, ?_, ?_, ?_⟩
  · intro he
    simp [fit_predict, he]
  · intro hv
    simp [fit_predict, hv]
  · intro hv hr
    simp [fit_predict, hv, hr]
  · intro red hv hr hc
    simp [fit_predict, hv, hr, hc]
  · intro red L hv hr hc he
    simp [fit_predict, estimate_parameters_state, hv, hr, hc, he]

/-- Collaborators whose document encoder and clusterer raise, used to
exercise the failure-propagation theorem. -/
def failCollab : Collaborators :=
  { encode := fun _ => .error "boom"
    vectorize := fun _ => .ok ([[2]], ["w"])
    reduce := fun _ => .ok [[3]]
    cluster := fun _ => .error "boom"
    agglo := fun _ _ => []
    sim := fun _ _ => 0
    idfWeight := fun _ => 1 }

/-- A fitted state left by a previous successful fit. -/
def prevState : ModelState :=
  { doc_term_matrix := some [[5]], classes_ := some [0] }

theorem fit_collaborator_failure_state_witness :
    (failCollab.encode ["doc"] = .error "boom" →
      fit_predict failCollab .ctfidf none ["doc"] none prevState =
        (.error "boom", prevState)) ∧
    (failCollab.vectorize ["doc"] = .error "boom" →
      fit_predict failCollab .ctfidf none ["doc"] (some [[1]]) prevState =
        (.error "boom", prevState)) ∧
    (failCollab.vectorize ["doc"] = .ok ([[2]], ["w"]) →
      failCollab.reduce [[1]] = .error "boom" →
      fit_predict failCollab .ctfidf none ["doc"] (some [[1]]) prevState =
        (.error "boom", { prevState with doc_term_matrix := some [[2]] })) ∧
    (∀ red, failCollab.vectorize ["doc"] = .ok ([[2]], ["w"]) →
      failCollab.reduce [[1]] = .ok red →
      failCollab.cluster red = .error "boom" →
      fit_predict failCollab .ctfidf none ["doc"] (some [[1]]) prevState =
        (.error "boom", { prevState with doc_term_matrix := some [[2]] })) ∧
    (∀ red L, failCollab.vectorize ["doc"] = .ok ([[2]], ["w"]) →
      failCollab.reduce [[1]] = .ok red →
      failCollab.cluster red = .ok L →
      failCollab.encode ["w"] = .error "boom" →
      fit_predict failCollab .ctfidf none ["doc"] (some [[1]]) prevState =
        (.error "boom",
         { prevState with
           doc_term_matrix := some [[2]]
           classes_ := some (npUnique L)
           topic_sizes_ := some (topicSizes L)
           topic_vectors_ := some (calculate_topic_vectors L [[1]]) })) :=
  fit_collaborator_failure_state failCollab .ctfidf none ["doc"] [[1]]
    prevState [[2]] ["w"] "boom"

/-- C5 counterexample: with a previously fitted state whose document×term
matrix is [[5]], a fit call in which encoding and term extraction succeed
(the new matrix is [[2]]) and the dimensionality reducer raises, leaves the
model with `doc_term_matrix = [[2]]`: a fitted field published by the
previous successful fit has been overwritten by the failed call, refuting
the no-partial-state part of the claim (the propagation part holds). -/
theorem fit_no_partial_state_counterexample :
    (fit_predict
      { encode := fun _ => .ok [[1]]
        vectorize := fun _ => .ok ([[2]], ["w"])
        reduce := fun _ => .error "reducer failed"
        cluster := fun _ => .ok [0]
        agglo := fun _ _ => []
        sim := fun _ _ => 0
        idfWeight := fun _ => 1 }
      .ctfidf none ["doc"] (some [[1]])
      { doc_term_matrix := some [[5]], classes_ := some [0] }).1 =
        .error "reducer failed" ∧
    (fit_predict
      { encode := fun _ => .ok [[1]]
        vectorize := fun _ => .ok ([[2]], ["w"])
        reduce := fun _ => .error "reducer failed"
        cluster := fun _ => .ok [0]
        agglo := fun _ _ => []
        sim := fun _ _ => 0
        idfWeight := fun _ => 1 }
      .ctfidf none ["doc"] (some [[1]])
      { doc_term_matrix := some [[5]], classes_ := some [0] }).2.doc_term_matrix
        = some [[2]] ∧
    some ([[2]] : List (List ℚ)) ≠ some [[5]] :=
  ⟨rfl, rfl, by decide⟩

/-- C6: when a reduction target is configured and every stage succeeds, the
final published state is exactly the output of a second, full parameter
estimation run on the remapped label array (with the raw embeddings, the
document×term matrix and the freshly encoded vocabulary): classes, sizes,
topic vectors, components and labels all equal the estimation formulas
applied to the remapped labels; nothing is aggregated from the pre-merge
statistics (which are wholly overwritten). -/
theorem fit_second_estimation_pass (c : Collaborators) (fi : FeatureImportance)
    (m : ℕ) (docs : List String) (E : List (List ℚ)) (s : ModelState)
    (dtm : List (List ℚ)) (vocab : List String) (red : List (List ℚ))
    (L : List Int) (VE : List (List ℚ)) (L2 : List Int)
    (hv : c.vectorize docs = .ok (dtm, vocab))
    (hr : c.reduce E = .ok red)
    (hc : c.cluster red = .ok L)
    (he : c.encode vocab = .ok VE)
    (hmap : applyMapping (merge_agglomerative c.agglo (npUnique L)
      (calculate_topic_vectors L E)
      (componentsOf fi c.idfWeight c.sim L E dtm VE).length m) L = some L2) :
    fit_predict c fi (some m) docs (some E) s =
      (.ok L2,
       { doc_term_matrix := some dtm
         classes_ := some (npUnique L2)
         topic_sizes_ := some (topicSizes L2)
         topic_vectors_ := some (calculate_topic_vectors L2 E)
         vocab_embeddings := some VE
         components_ := some (componentsOf fi c.idfWeight c.sim L2 E dtm VE)
         labels_ := some L2
         mapping_ := some (merge_agglomerative c.agglo (npUnique L)
           (calculate_topic_vectors L E)
           (componentsOf fi c.idfWeight c.sim L E dtm VE).length m) }) := by
  simp [fit_predict, estimate_parameters_state, hv, hr, hc, he, hmap]

/-- Concrete collaborators exercising the full pipeline with a merge:
4 documents, clusters [0, 0, 5, 9], merged down to one topic. -/
def demoCollab : Collaborators :=
  { encode := fun _ => .ok [[1]]
    vectorize := fun _ => .ok ([[1],[0],[1],[1]], ["w"])
    reduce := fun _ => .ok [[0],[0],[9],[9]]
    cluster := fun _ => .ok [0,0,5,9]
    agglo := fun _ _ => [0, 0, 0]
    sim := fun _ _ => 0
    idfWeight := fun _ => 1 }

theorem fit_second_estimation_pass_witness :
    (demoCollab.vectorize ["a","b","c","d"] = .ok ([[1],[0],[1],[1]], ["w"])) ∧
    (demoCollab.reduce [[1],[2],[30],[31]] = .ok [[0],[0],[9],[9]]) ∧
    (demoCollab.cluster [[0],[0],[9],[9]] = .ok [0,0,5,9]) ∧
    (demoCollab.encode ["w"] = .ok [[1]]) ∧
    (applyMapping (merge_agglomerative demoCollab.agglo (npUnique [0,0,5,9])
      (calculate_topic_vectors [0,0,5,9] [[1],[2],[30],[31]])
      (componentsOf .ctfidf demoCollab.idfWeight demoCollab.sim [0,0,5,9]
        [[1],[2],[30],[31]] [[1],[0],[1],[1]] [[1]]).length 1) [0,0,5,9] =
      some [0,0,0,0]) ∧
    fit_predict demoCollab .ctfidf (some 1) ["a","b","c","d"]
        (some [[1],[2],[30],[31]]) {} =
      (.ok [0,0,0,0],
       { doc_term_matrix := some [[1],[0],[1],[1]]
         classes_ := some (npUnique [0,0,0,0])
         topic_sizes_ := some (topicSizes [0,0,0,0])
         topic_vectors_ := some (calculate_topic_vectors [0,0,0,0]
           [[1],[2],[30],[31]])
         vocab_embeddings := some [[1]]
         components_ := some (componentsOf .ctfidf demoCollab.idfWeight
           demoCollab.sim [0,0,0,0] [[1],[2],[30],[31]] [[1],[0],[1],[1]]
           [[1]])
         labels_ := some [0,0,0,0]
         mapping_ := some (merge_agglomerative demoCollab.agglo
           (npUnique [0,0,5,9])
           (calculate_topic_vectors [0,0,5,9] [[1],[2],[30],[31]])
           (componentsOf .ctfidf demoCollab.idfWeight demoCollab.sim
             [0,0,5,9] [[1],[2],[30],[31]] [[1],[0],[1],[1]]
             [[1]]).length 1) }) :=
  ⟨rfl, rfl, rfl, rfl, by decide,
    fit_second_estimation_pass demoCollab .ctfidf 1 ["a","b","c","d"]
      [[1],[2],[30],[31]] {} [[1],[0],[1],[1]] ["w"] [[0],[0],[9],[9]]
      [0,0,5,9] [[1]] [0,0,0,0] rfl rfl rfl rfl (by decide)⟩
